import Mathlib

/-!
Shallow embedding of the radar projection and trail-tracking core of the
Rust-Live-Vector-Flight-Tracker repository (src/aircraft.rs, src/geo.rs,
src/config.rs, src/radar_view.rs), together with theorems settling the
frozen claims about it.

Modelling conventions:
* Rust `f64` / `f32` values are modelled by `ℚ`.  Every operation the
  embedded code performs on them (+, -, *, comparison, clamp) is exact
  rational arithmetic; the `f64 -> f32` casts in `geo_to_screen` are
  modelled as the identity.  The one square root in `geo_to_screen` is
  eliminated by comparing squares (for `r ≥ 0`, `sqrt d ≤ r ↔ d ≤ r²`),
  and `0 ≤ radius²` holds for every rational radius, so the embedded
  in-range test `dx² + dy² ≤ radius²` coincides with the source's
  `sqrt(dx² + dy²) <= radius` whenever `radius ≥ 0` (the source radius is
  `min(width,height) * 0.4 ≥ 0`).
* `chrono::DateTime<Utc>` timestamps are modelled by `ℤ` (seconds), so
  `(now - time).num_seconds()` becomes plain `now - time`.  `Utc::now()`
  is an input of the environment and is passed as an explicit `now`
  parameter.
* The transcendental functions `sin`/`cos` of `f64` are uninterpreted:
  drawing code that needs them receives a `Trig` record of rational
  functions, and every theorem about drawing holds for all such records.
  `std::f64::consts::PI` is the exact dyadic rational that the `f64`
  constant denotes.
* `HashMap<String, AircraftTrail>` is modelled as an association list
  `List (String × AircraftTrail)`; `entry(k).or_insert_with(..)` updates
  the first binding of `k` in place or appends a fresh one.
* `egui::Painter` is a sink of draw primitives; each `draw_*` method is
  modelled as the list of primitives it emits, and `RadarView::draw` as
  their concatenation in call order.
-/

/-- `geo::Point<f64>`: `x` is longitude, `y` is latitude. -/
structure GeoPoint where
  x : ℚ
  y : ℚ
  deriving DecidableEq, Repr

/-- `egui::Pos2` screen position. -/
structure Pos2 where
  x : ℚ
  y : ℚ
  deriving DecidableEq, Repr

/-- `egui::Color32`, built via `from_rgb` / `from_rgba_premultiplied`. -/
structure Color32 where
  r : ℕ
  g : ℕ
  b : ℕ
  a : ℕ
  deriving DecidableEq, Repr

def Color32.from_rgb (r g b : ℕ) : Color32 := ⟨r, g, b, 255⟩

def Color32.from_rgba_premultiplied (r g b a : ℕ) : Color32 := ⟨r, g, b, a⟩

def Color32.WHITE : Color32 := Color32.from_rgb 255 255 255

def Color32.BLACK : Color32 := Color32.from_rgb 0 0 0

/-- `egui::Stroke`: width and color. -/
structure Stroke where
  width : ℚ
  color : Color32
  deriving DecidableEq, Repr

/-- `crate::geo::Location` (src/geo.rs). -/
structure Location where
  lat : ℚ
  lon : ℚ
  name : Option String
  deriving DecidableEq, Repr

/-- `crate::config::Theme` (src/config.rs). -/
inductive Theme where
  | Dark
  | Light
  | Auto
  deriving DecidableEq, Repr

/-- `Theme::is_dark` (src/config.rs): `Auto` uses the "simple heuristic"
and reports dark. -/
def Theme.is_dark : Theme → Bool
  | Theme.Dark => true
  | Theme.Light => false
  | Theme.Auto => true

/-- `crate::config::AppConfig` (src/config.rs), restricted to the fields the
radar core reads (`location`, `radar_radius_km`, `show_trails`,
`trail_length`, `theme`).  The remaining fields (refresh interval, API
credentials, window size, auto refresh) are never read by any embedded
operation. -/
structure AppConfig where
  location : Location
  radar_radius_km : ℚ
  show_trails : Bool
  trail_length : ℕ
  theme : Theme
  deriving DecidableEq, Repr

/-- `crate::aircraft::Aircraft` (src/aircraft.rs), restricted to the fields
read by the embedded operations (`position`, `altitude_band`,
`display_name`, `is_active`, trail and icon drawing).  The remaining
source fields (`origin_country`, `time_velocity`, `velocity`,
`vertical_rate`, `sensors`, `geo_altitude`, `squawk`, `spi`,
`position_source`, `category`) are never read by them. -/
structure Aircraft where
  icao24 : String
  callsign : Option String
  time_position : Option ℤ
  longitude : Option ℚ
  latitude : Option ℚ
  altitude : Option ℚ
  true_track : Option ℚ
  deriving DecidableEq, Repr

/-- `Aircraft::has_position` (src/aircraft.rs lines 50-52). -/
def Aircraft.has_position (a : Aircraft) : Bool :=
  a.longitude.isSome && a.latitude.isSome

/-- `Aircraft::position` (src/aircraft.rs lines 54-59). -/
def Aircraft.position (a : Aircraft) : Option GeoPoint :=
  match a.longitude, a.latitude with
  | some lon, some lat => some ⟨lon, lat⟩
  | _, _ => none

/-- `crate::aircraft::AltitudeBand` (src/aircraft.rs lines 88-95). -/
inductive AltitudeBand where
  | Low
  | Medium
  | High
  | VeryHigh
  | Unknown
  deriving DecidableEq, Repr

/-- `Aircraft::altitude_band` (src/aircraft.rs lines 61-69): the source is a
`match` on `self.altitude` with guards `alt < 1000.0`, `alt < 10000.0`,
`alt < 25000.0` tried in order, `Some(_) => VeryHigh`, `None => Unknown`. -/
def Aircraft.altitude_band (a : Aircraft) : AltitudeBand :=
  match a.altitude with
  | some alt =>
      if alt < 1000 then AltitudeBand.Low
      else if alt < 10000 then AltitudeBand.Medium
      else if alt < 25000 then AltitudeBand.High
      else AltitudeBand.VeryHigh
  | none => AltitudeBand.Unknown

/-- `AltitudeBand::color` (src/aircraft.rs lines 97-107). -/
def AltitudeBand.color : AltitudeBand → Color32
  | AltitudeBand.Low => Color32.from_rgb 255 255 0
  | AltitudeBand.Medium => Color32.from_rgb 0 255 0
  | AltitudeBand.High => Color32.from_rgb 0 255 255
  | AltitudeBand.VeryHigh => Color32.from_rgb 255 0 255
  | AltitudeBand.Unknown => Color32.from_rgb 128 128 128

/-- Rust `str::trim`: the string with leading and trailing whitespace
removed (structural implementation over the character list). -/
def rustTrim (s : String) : String :=
  String.mk
    (((s.data.dropWhile Char.isWhitespace).reverse.dropWhile
        Char.isWhitespace).reverse)

/-- `Aircraft::display_name` (src/aircraft.rs lines 71-76):
`self.callsign.as_ref().map(|c| c.trim().to_string()).unwrap_or_else(|| self.icao24.clone())`.
The `unwrap_or_else` fallback fires only when `callsign` is `None`; a
present callsign is returned trimmed even when trimming leaves it empty. -/
def Aircraft.display_name (a : Aircraft) : String :=
  match a.callsign with
  | some c => rustTrim c
  | none => a.icao24

/-- `Aircraft::is_active` (src/aircraft.rs lines 78-85): true iff a position
timestamp exists and `(now - time).num_seconds() < 300`. -/
def Aircraft.is_active (a : Aircraft) (now : ℤ) : Bool :=
  match a.time_position with
  | some time => decide (now - time < 300)
  | none => false

/-- `crate::aircraft::AircraftTrail` (src/aircraft.rs lines 109-114). -/
structure AircraftTrail where
  icao24 : String
  positions : List (GeoPoint × ℤ)
  max_points : ℕ
  deriving DecidableEq, Repr

/-- `AircraftTrail::new` (src/aircraft.rs lines 117-123). -/
def AircraftTrail.new (icao24 : String) (max_points : ℕ) : AircraftTrail :=
  ⟨icao24, [], max_points⟩

/-- `AircraftTrail::add_position` (src/aircraft.rs lines 125-130): push the
new entry at the back, then `positions.remove(0)` (drop the front entry)
when the length exceeds `max_points`. -/
def AircraftTrail.add_position (t : AircraftTrail) (position : GeoPoint)
    (timestamp : ℤ) : AircraftTrail :=
  let positions := t.positions ++ [(position, timestamp)]
  if positions.length > t.max_points then
    { t with positions := positions.drop 1 }
  else
    { t with positions := positions }

/-- `AircraftTrail::clear` (src/aircraft.rs lines 132-134). -/
def AircraftTrail.clear (t : AircraftTrail) : AircraftTrail :=
  { t with positions := [] }

/-- Fold `add_position` over a whole list of samples, in order. -/
def AircraftTrail.add_all (t : AircraftTrail) (ps : List (GeoPoint × ℤ)) :
    AircraftTrail :=
  ps.foldl (fun t p => t.add_position p.1 p.2) t

/-- The draw primitives emitted through the `egui::Painter` by
src/radar_view.rs.  Every `painter.text` call in the source uses alignment
`Align2::CENTER_CENTER`, so the alignment argument is omitted. -/
inductive Primitive where
  | rectFilled (center : Pos2) (size rounding : ℚ) (color : Color32)
  | circleStroke (center : Pos2) (radius : ℚ) (stroke : Stroke)
  | circleFilled (center : Pos2) (radius : ℚ) (color : Color32)
  | text (pos : Pos2) (content : String) (fontSize : ℚ) (color : Color32)
  | line (points : List Pos2) (stroke : Stroke)
  | lineSegment (a b : Pos2) (stroke : Stroke)
  | convexPolygon (points : List Pos2) (fill : Color32) (stroke : Stroke)
  deriving DecidableEq, Repr

/-- Uninterpreted stand-ins for `f64::sin` and `f64::cos` (radians). -/
structure Trig where
  sin : ℚ → ℚ
  cos : ℚ → ℚ

/-- `std::f64::consts::PI`: the exact rational value of the `f64` constant. -/
def PI : ℚ := 884279719003555 / 281474976710656

/-- `crate::radar_view::RadarView` (src/radar_view.rs lines 9-14), with the
`HashMap<String, AircraftTrail>` modelled as an association list. -/
structure RadarView where
  center : Pos2
  radius : ℚ
  scale : ℚ
  aircraft_trails : List (String × AircraftTrail)

/-- First binding of `key` in an association list of trails (the lookup a
`HashMap` performs). -/
def findTrail (m : List (String × AircraftTrail)) (key : String) :
    Option AircraftTrail :=
  match m with
  | [] => none
  | (k, v) :: rest => if k = key then some v else findTrail rest key

/-- `HashMap::entry(key).or_insert_with(|| dflt)` followed by applying `f` to
the entry: modify the first binding of `key` in place, or add a fresh
binding `(key, f dflt)` when none exists. -/
def updateEntry (m : List (String × AircraftTrail)) (key : String)
    (dflt : AircraftTrail) (f : AircraftTrail → AircraftTrail) :
    List (String × AircraftTrail) :=
  match m with
  | [] => [(key, f dflt)]
  | (k, v) :: rest =>
      if k = key then (k, f v) :: rest
      else (k, v) :: updateEntry rest key dflt f

/-- The body of the `for aircraft in aircraft` loop of
`RadarView::update_trails` (src/radar_view.rs lines 30-38), hoisted to a
named function: for an aircraft with a resolvable position, fetch-or-create
its trail (created with `config.trail_length` as the bound) and append the
position stamped with
`aircraft.time_position.unwrap_or_else(chrono::Utc::now)`; otherwise leave
the store untouched. -/
def trailStep (config : AppConfig) (now : ℤ)
    (m : List (String × AircraftTrail)) (a : Aircraft) :
    List (String × AircraftTrail) :=
  match a.position with
  | some position =>
      updateEntry m a.icao24
        (AircraftTrail.new a.icao24 config.trail_length)
        (fun t => t.add_position position (a.time_position.getD now))
  | none => m

/-- `RadarView::update_trails` (src/radar_view.rs lines 29-39): fold the
loop body over the snapshot, in order. -/
def RadarView.update_trails (v : RadarView) (aircraft : List Aircraft)
    (config : AppConfig) (now : ℤ) : RadarView :=
  { v with aircraft_trails :=
      aircraft.foldl (trailStep config now) v.aircraft_trails }

/-- `RadarView::geo_to_screen` (src/radar_view.rs lines 229-245): scale the
raw longitude/latitude differences by the flat constant `1000000.0` and by
`self.scale`, then keep the point iff its pixel distance from the center
is at most `self.radius`.  The source's
`sqrt(dx² + dy²) <= self.radius` is embedded as `dx² + dy² ≤ radius²`
(equivalent for the source's nonnegative radius).  Note: neither the
haversine distance (`Location::distance_to`) nor
`config.radar_radius_km` is consulted here. -/
def RadarView.geo_to_screen (v : RadarView) (geo_point : GeoPoint)
    (user_location : Location) : Option Pos2 :=
  let lat_diff := geo_point.y - user_location.lat
  let lon_diff := geo_point.x - user_location.lon
  let x := v.center.x + lon_diff * 1000000 * v.scale
  let y := v.center.y - lat_diff * 1000000 * v.scale
  if (x - v.center.x) ^ 2 + (y - v.center.y) ^ 2 ≤ v.radius ^ 2 then
    some ⟨x, y⟩
  else
    none

/-- `RadarView::set_scale` (src/radar_view.rs lines 247-249):
`self.scale = scale.clamp(0.1, 5.0)`. -/
def RadarView.set_scale (v : RadarView) (scale : ℚ) : RadarView :=
  { v with scale := min (max scale (1/10)) 5 }

/-- `RadarView::clear_trails` (src/radar_view.rs lines 259-261). -/
def RadarView.clear_trails (v : RadarView) : RadarView :=
  { v with aircraft_trails := [] }

/-- `RadarView::draw_radar_background` (src/radar_view.rs lines 61-73): one
filled rect of side `2·radius` with corner rounding `radius` (a disc). -/
def RadarView.draw_radar_background (v : RadarView) (config : AppConfig) :
    List Primitive :=
  let background_color :=
    if config.theme.is_dark then Color32.from_rgb 20 20 30
    else Color32.from_rgb 240 240 250
  [Primitive.rectFilled v.center (v.radius * 2) v.radius background_color]

/-- `RadarView::draw_range_rings` (src/radar_view.rs lines 75-102): for
`i in 1..=5`, a stroked circle of radius `radius * i/5` followed by the
label `"{i} mi"` placed at `center + ring_radius * (0.7, -0.7)`. -/
def RadarView.draw_range_rings (v : RadarView) (config : AppConfig) :
    List Primitive :=
  let ring_color :=
    if config.theme.is_dark then Color32.from_rgb 60 60 80
    else Color32.from_rgb 200 200 220
  let stroke : Stroke := ⟨1, ring_color⟩
  (List.range 5).foldl (fun ps j =>
    let i : ℕ := j + 1
    let ring_radius := v.radius * ((i : ℚ) / 5)
    let label_pos : Pos2 :=
      ⟨v.center.x + ring_radius * (7/10), v.center.y - ring_radius * (7/10)⟩
    ps ++ [Primitive.circleStroke v.center ring_radius stroke,
           Primitive.text label_pos (toString i ++ " mi") 12 ring_color]) []

/-- `RadarView::draw_compass_rose` (src/radar_view.rs lines 104-123): the
texts N, E, S, W at bearings 0°, 90°, 180°, 270°, each placed at radius
`radius + 20` from the center (clockwise from north). -/
def RadarView.draw_compass_rose (v : RadarView) (trig : Trig) :
    List Primitive :=
  let directions := ["N", "E", "S", "W"]
  let angles : List ℚ := [0, 90, 180, 270]
  (directions.zip angles).foldl (fun ps da =>
    let angle_rad := da.2 * PI / 180
    let pos : Pos2 :=
      ⟨v.center.x + (v.radius + 20) * trig.sin angle_rad,
       v.center.y - (v.radius + 20) * trig.cos angle_rad⟩
    ps ++ [Primitive.text pos da.1 14 Color32.WHITE]) []

/-- `RadarView::draw_aircraft_trails` (src/radar_view.rs lines 125-144):
per stored trail, skip it when it has fewer than two positions; project
each position, keep the in-range ones; emit one polyline when at least two
survive. -/
def RadarView.draw_aircraft_trails (v : RadarView) (user_location : Location) :
    List Primitive :=
  v.aircraft_trails.foldl (fun ps kt =>
    let trail := kt.2
    if trail.positions.length < 2 then ps
    else
      let points := trail.positions.filterMap
        (fun pt => v.geo_to_screen pt.1 user_location)
      if points.length ≥ 2 then
        ps ++ [Primitive.line points ⟨2, Color32.from_rgba_premultiplied 100 100 255 100⟩]
      else ps) []

/-- `RadarView::draw_aircraft_icon` (src/radar_view.rs lines 156-200): an
oriented triangle when `true_track` is present, otherwise a filled circle,
both colored by the altitude band; then the display-name label 15 px above,
emitted only when it is non-empty. -/
def RadarView.draw_aircraft_icon (v : RadarView) (trig : Trig)
    (aircraft : Aircraft) (pos : Pos2) : List Primitive :=
  let color := aircraft.altitude_band.color
  let size : ℚ := 8
  let icon : List Primitive :=
    match aircraft.true_track with
    | some heading =>
        let heading_rad := heading * PI / 180
        let points : List Pos2 :=
          [⟨pos.x + size * trig.cos heading_rad,
            pos.y - size * trig.sin heading_rad⟩,
           ⟨pos.x + size * (1/2) * trig.cos (heading_rad + 5/2),
            pos.y - size * (1/2) * trig.sin (heading_rad + 5/2)⟩,
           ⟨pos.x + size * (1/2) * trig.cos (heading_rad - 5/2),
            pos.y - size * (1/2) * trig.sin (heading_rad - 5/2)⟩]
        [Primitive.convexPolygon points color ⟨1, Color32.BLACK⟩]
    | none => [Primitive.circleFilled pos size color]
  let label := aircraft.display_name
  icon ++ (if label.isEmpty then []
           else [Primitive.text ⟨pos.x, pos.y - 15⟩ label 10 Color32.WHITE])

/-- `RadarView::draw_aircraft` (src/radar_view.rs lines 146-154): per
aircraft, draw its icon (and label) only when it has a position and that
position projects in range. -/
def RadarView.draw_aircraft (v : RadarView) (trig : Trig)
    (aircraft : List Aircraft) (user_location : Location) : List Primitive :=
  aircraft.foldl (fun ps a =>
    match a.position with
    | some position =>
        match v.geo_to_screen position user_location with
        | some screen_pos => ps ++ v.draw_aircraft_icon trig a screen_pos
        | none => ps
    | none => ps) []

/-- `RadarView::draw_center_marker` (src/radar_view.rs lines 202-227): the
center crosshair (two segments) and the reference-location label 25 px
below the center (name, defaulting to "Your Location"). -/
def RadarView.draw_center_marker (v : RadarView) (user_location : Location) :
    List Primitive :=
  let cross_size : ℚ := 10
  let stroke : Stroke := ⟨2, Color32.WHITE⟩
  let location_name := user_location.name.getD "Your Location"
  [Primitive.lineSegment ⟨v.center.x - cross_size, v.center.y⟩
     ⟨v.center.x + cross_size, v.center.y⟩ stroke,
   Primitive.lineSegment ⟨v.center.x, v.center.y - cross_size⟩
     ⟨v.center.x, v.center.y + cross_size⟩ stroke,
   Primitive.text ⟨v.center.x, v.center.y + 25⟩ location_name 12 Color32.WHITE]

/-- `RadarView::draw` (src/radar_view.rs lines 41-59): background, range
rings, compass rose, trails (only when `config.show_trails`), aircraft,
center marker — in this call order, each appending its primitives to the
painter. -/
def RadarView.draw (v : RadarView) (trig : Trig) (aircraft : List Aircraft)
    (config : AppConfig) (user_location : Location) : List Primitive :=
  v.draw_radar_background config
  ++ v.draw_range_rings config
  ++ v.draw_compass_rose trig
  ++ (if config.show_trails then v.draw_aircraft_trails user_location else [])
  ++ v.draw_aircraft trig aircraft user_location
  ++ v.draw_center_marker user_location

/-! ### Shared helper lemmas -/

/-- One `add_position` under the length invariant: the result keeps the last
`max_points` entries of the extended list, and `max_points` is unchanged. -/
lemma add_position_spec (t : AircraftTrail) (q : GeoPoint) (ts : ℤ)
    (h : t.positions.length ≤ t.max_points) :
    (t.add_position q ts).positions
      = (t.positions ++ [(q, ts)]).drop (t.positions.length + 1 - t.max_points)
    ∧ (t.add_position q ts).max_points = t.max_points := by
  simp only [AircraftTrail.add_position]
  have hl : (t.positions ++ [(q, ts)]).length = t.positions.length + 1 := by simp
  by_cases hc : (t.positions ++ [(q, ts)]).length > t.max_points
  · rw [if_pos hc]
    refine ⟨?_, rfl⟩
    rw [hl] at hc
    have h1 : t.positions.length + 1 - t.max_points = 1 := by omega
    rw [h1]
  · rw [if_neg hc]
    refine ⟨?_, rfl⟩
    rw [hl] at hc
    have h0 : t.positions.length + 1 - t.max_points = 0 := by omega
    rw [h0, List.drop_zero]

/-- Folding `add_position` over a list of samples keeps exactly the last
`max_points` entries of the concatenation, in order. -/
lemma add_all_spec : ∀ (ps : List (GeoPoint × ℤ)) (t : AircraftTrail),
    t.positions.length ≤ t.max_points →
    (t.add_all ps).positions
        = (t.positions ++ ps).drop (t.positions.length + ps.length - t.max_points)
      ∧ (t.add_all ps).max_points = t.max_points := by
  intro ps
  induction ps with
  | nil =>
      intro t h
      have h0 : t.positions.length - t.max_points = 0 := by omega
      refine ⟨?_, rfl⟩
      simp [AircraftTrail.add_all, h0]
  | cons p ps ih =>
      intro t h
      have hspec := add_position_spec t p.1 p.2 h
      set t' := t.add_position p.1 p.2 with ht'
      have hlen' : t'.positions.length
          = t.positions.length + 1 - (t.positions.length + 1 - t.max_points) := by
        rw [hspec.1]
        simp
      have hmax' : t'.max_points = t.max_points := hspec.2
      have hinv' : t'.positions.length ≤ t'.max_points := by
        rw [hlen', hmax']; omega
      have hstep : t.add_all (p :: ps) = t'.add_all ps := by
        simp [AircraftTrail.add_all]
      have hih := ih t' hinv'
      refine ⟨?_, by rw [hstep, hih.2]; exact hmax'⟩
      rw [hstep, hih.1, hspec.1, hmax']
      have hcomb :
          ((t.positions ++ [(p.1, p.2)]).drop (t.positions.length + 1 - t.max_points)) ++ ps
            = ((t.positions ++ [(p.1, p.2)]) ++ ps).drop
                (t.positions.length + 1 - t.max_points) := by
        conv_rhs => rw [List.drop_append_eq_append_drop]
        have h0 : (t.positions.length + 1 - t.max_points)
            - (t.positions ++ [(p.1, p.2)]).length = 0 := by
          simp only [List.length_append, List.length_cons, List.length_nil]
          omega
        rw [h0, List.drop_zero]
      rw [hcomb, List.drop_drop]
      have heta : (t.positions ++ [(p.1, p.2)]) ++ ps = t.positions ++ (p :: ps) := by
        simp
      rw [heta]
      congr 1
      simp only [List.length_drop, List.length_append, List.length_cons, List.length_nil]
      omega

/-! ### Claims -/

/-- C1: the claim says `geo_to_screen` returns `none` exactly when the
haversine distance from the reference exceeds `maxRangeKm`, with the zoom
scale never changing which points are in range.  The code violates this:
it culls purely in pixel space after a flat longitude/latitude scaling, so
the zoom scale alone flips the same nearby point (0.001° of longitude,
about 0.11 km from the reference — far inside any configured range) from
in-range (`some`) at scale 0.1 to out-of-range (`none`) at scale 5.0, both
legal scales produced by `set_scale`. -/
theorem geo_to_screen_scale_changes_in_range :
    (((⟨⟨0, 0⟩, 200, 1, []⟩ : RadarView).set_scale
        (1/10)).geo_to_screen ⟨1/1000, 0⟩ ⟨0, 0, none⟩ = some ⟨100, 0⟩) ∧
    (((⟨⟨0, 0⟩, 200, 1, []⟩ : RadarView).set_scale
        5).geo_to_screen ⟨1/1000, 0⟩ ⟨0, 0, none⟩ = none) := by
  constructor <;> norm_num [RadarView.geo_to_screen, RadarView.set_scale]

/-- C2: starting from an empty trail with bound `k`, any sequence of appends
leaves exactly the most recent `min(N, k)` appended positions in insertion
order (the FIFO suffix `ps.drop (ps.length - k)`), and the stored length
never exceeds `max_points`. -/
theorem trail_fifo_bounded (icao : String) (k : ℕ) (ps : List (GeoPoint × ℤ)) :
    ((AircraftTrail.new icao k).add_all ps).positions = ps.drop (ps.length - k) ∧
    ((AircraftTrail.new icao k).add_all ps).positions.length ≤ k := by
  have h := add_all_spec ps (AircraftTrail.new icao k) (by simp [AircraftTrail.new])
  have h1 : ((AircraftTrail.new icao k).add_all ps).positions
      = ps.drop (ps.length - k) := by
    rw [h.1]; simp [AircraftTrail.new]
  refine ⟨h1, ?_⟩
  rw [h1]
  simp only [List.length_drop]
  omega

/-- C3: the claim says every point within `maxRangeKm` projects to a screen
point at pixel distance at most `pixelRadius * scale` from the center.
The code violates this: at scale 0.1 the point 0.001° of longitude from
the reference (about 0.11 km, inside any configured range) is returned at
pixel distance 100 from the center, while `pixelRadius * scale = 20`
(squared: 10000 > 400). -/
theorem geo_to_screen_in_range_exceeds_scaled_radius :
    ((⟨⟨0, 0⟩, 200, 1/10, []⟩ : RadarView).geo_to_screen
        ⟨1/1000, 0⟩ ⟨0, 0, none⟩ = some ⟨100, 0⟩) ∧
    ¬ (((100 : ℚ) - 0) ^ 2 + ((0 : ℚ) - 0) ^ 2 ≤ ((200 : ℚ) * (1/10)) ^ 2) := by
  constructor
  · norm_num [RadarView.geo_to_screen]
  · norm_num

/-- C4: projecting a point whose longitude and latitude equal the
reference's returns exactly `frame.center`, with no tolerance: both
coordinate differences are exactly zero, so the projected point is exactly
the center and the in-range test `0 ≤ radius²` always holds. -/
theorem geo_to_screen_reference_is_center (v : RadarView) (loc : Location) :
    v.geo_to_screen ⟨loc.lon, loc.lat⟩ loc = some v.center := by
  simp [RadarView.geo_to_screen, sq_nonneg]

/-- C5: `altitude_band` is total over the optional altitude: `none` maps to
`Unknown`, and for a present altitude the four numeric bands are
characterized by `< 1000`, `[1000, 10000)`, `[10000, 25000)` and
`≥ 25000` — exhaustive and non-overlapping (each band equality is an iff
against its half-open interval). -/
theorem altitude_band_partition (a : Aircraft) :
    (a.altitude = none → a.altitude_band = AltitudeBand.Unknown) ∧
    (∀ x : ℚ, a.altitude = some x →
      ((a.altitude_band = AltitudeBand.Low ↔ x < 1000) ∧
       (a.altitude_band = AltitudeBand.Medium ↔ 1000 ≤ x ∧ x < 10000) ∧
       (a.altitude_band = AltitudeBand.High ↔ 10000 ≤ x ∧ x < 25000) ∧
       (a.altitude_band = AltitudeBand.VeryHigh ↔ 25000 ≤ x))) := by
  refine ⟨fun h => by simp [Aircraft.altitude_band, h], fun x h => ?_⟩
  simp only [Aircraft.altitude_band, h]
  split_ifs with h1 h2 h3 <;>
    refine ⟨?_, ?_, ?_, ?_⟩ <;>
    simp_all <;>
    first
      | linarith
      | (intro hh; linarith)

/-- C5 witness: the boundary samples from the claim — 999.9 is `Low`,
1000 and 9999.9 are `Medium`, 10000 and 24999.9 are `High`, 25000 is
`VeryHigh`, and a missing altitude is `Unknown`. -/
theorem altitude_band_partition_witness :
    (Aircraft.mk "abc123" none none none none (some 999.9) none).altitude_band
        = AltitudeBand.Low ∧
    (Aircraft.mk "abc123" none none none none (some 1000) none).altitude_band
        = AltitudeBand.Medium ∧
    (Aircraft.mk "abc123" none none none none (some 9999.9) none).altitude_band
        = AltitudeBand.Medium ∧
    (Aircraft.mk "abc123" none none none none (some 10000) none).altitude_band
        = AltitudeBand.High ∧
    (Aircraft.mk "abc123" none none none none (some 24999.9) none).altitude_band
        = AltitudeBand.High ∧
    (Aircraft.mk "abc123" none none none none (some 25000) none).altitude_band
        = AltitudeBand.VeryHigh ∧
    (Aircraft.mk "abc123" none none none none none none).altitude_band
        = AltitudeBand.Unknown :=
  ⟨((altitude_band_partition _).2 _ rfl).1.mpr (by norm_num),
   ((altitude_band_partition _).2 _ rfl).2.1.mpr (by norm_num),
   ((altitude_band_partition _).2 _ rfl).2.1.mpr (by norm_num),
   ((altitude_band_partition _).2 _ rfl).2.2.1.mpr (by norm_num),
   ((altitude_band_partition _).2 _ rfl).2.2.1.mpr (by norm_num),
   ((altitude_band_partition _).2 _ rfl).2.2.2.mpr (by norm_num),
   (altitude_band_partition _).1 rfl⟩

/-- C6: the claim (and the repository's own integration test
`test_aircraft_display_name`) says an empty or whitespace-only callsign
falls back to the `icao24` identifier.  The code violates this: the
`unwrap_or_else` fallback fires only when the callsign is `None`, so a
present-but-blank callsign yields the empty string, not `"test123"`. -/
theorem display_name_blank_callsign_bug :
    (Aircraft.mk "test123" (some "") none none none none none).display_name
        = "" ∧
    (Aircraft.mk "test123" (some "  ") none none none none none).display_name
        = "" ∧
    ("" : String) ≠ "test123" := by
  refine ⟨?_, ?_, ?_⟩ <;> decide

/-- C7: `is_active` returns true iff a position timestamp exists and the
elapsed time since it is strictly under 300 seconds (so a 299-second-old
timestamp is active, a 301-second-old one is not, and a missing timestamp
is never active). -/
theorem is_active_iff_under_300 (a : Aircraft) (now : ℤ) :
    a.is_active now = true ↔ ∃ t, a.time_position = some t ∧ now - t < 300 := by
  cases h : a.time_position <;> simp [Aircraft.is_active, h]

/-- `add_position` never touches the `max_points` bound. -/
lemma add_position_max_points (t : AircraftTrail) (q : GeoPoint) (ts : ℤ) :
    (t.add_position q ts).max_points = t.max_points := by
  simp only [AircraftTrail.add_position]
  split <;> rfl

/-- Dropping the aircraft the loop body ignores does not change the fold. -/
lemma foldl_trailStep_filter (config : AppConfig) (now : ℤ) :
    ∀ (l : List Aircraft) (m : List (String × AircraftTrail)),
      l.foldl (trailStep config now) m
        = (l.filter fun a => a.position.isSome).foldl (trailStep config now) m := by
  intro l
  induction l with
  | nil => intro m; rfl
  | cons a l ih =>
      intro m
      cases h : a.position with
      | none =>
          rw [List.filter_cons_of_neg (by simp [h])]
          have hstep : trailStep config now m a = m := by simp [trailStep, h]
          simp only [List.foldl_cons, hstep]
          exact ih m
      | some q =>
          rw [List.filter_cons_of_pos (by simp [h])]
          simp only [List.foldl_cons]
          exact ih _

/-- Lookup after `updateEntry`: the touched key now maps to `f` of its old
value (or of the default), every other key is untouched. -/
lemma findTrail_updateEntry (m : List (String × AircraftTrail)) (key : String)
    (dflt : AircraftTrail) (f : AircraftTrail → AircraftTrail) (tid : String) :
    findTrail (updateEntry m key dflt f) tid
      = if tid = key then some (f ((findTrail m key).getD dflt))
        else findTrail m tid := by
  induction m with
  | nil =>
      by_cases h : tid = key
      · subst h
        simp [updateEntry, findTrail]
      · have h2 : ¬ (key = tid) := fun hh => h hh.symm
        simp [updateEntry, findTrail, h, h2]
  | cons kv rest ih =>
      obtain ⟨k, t⟩ := kv
      simp only [updateEntry]
      by_cases hk : k = key
      · subst hk
        rw [if_pos rfl]
        by_cases h : k = tid
        · subst h
          simp [findTrail]
        · have h2 : ¬ (tid = k) := fun hh => h hh.symm
          simp [findTrail, h, h2]
      · rw [if_neg hk]
        by_cases h : k = tid
        · subst h
          simp [findTrail, hk]
        · have h2 : ¬ (tid = k) := fun hh => h hh.symm
          simp [findTrail, h, h2, hk, ih]

/-- `trailStep` on an aircraft without a position is the identity. -/
lemma findTrail_trailStep_none (config : AppConfig) (now : ℤ)
    (m : List (String × AircraftTrail)) (a : Aircraft)
    (h : a.position = none) (tid : String) :
    findTrail (trailStep config now m a) tid = findTrail m tid := by
  simp [trailStep, h]

/-- `trailStep` on an aircraft with a position appends to (or creates) the
trail of its own id and leaves every other id untouched. -/
lemma findTrail_trailStep_some (config : AppConfig) (now : ℤ)
    (m : List (String × AircraftTrail)) (a : Aircraft) (q : GeoPoint)
    (h : a.position = some q) (tid : String) :
    findTrail (trailStep config now m a) tid
      = if tid = a.icao24 then
          some (((findTrail m a.icao24).getD
              (AircraftTrail.new a.icao24 config.trail_length)).add_position q
            (a.time_position.getD now))
        else findTrail m tid := by
  simp [trailStep, h, findTrail_updateEntry]

/-- Across the whole `update_trails` fold, an existing trail keeps its
`max_points`, and a trail that appears for an id that had none was created
with `config.trail_length`. -/
lemma foldl_trailStep_max_points (config : AppConfig) (now : ℤ) :
    ∀ (l : List Aircraft) (m : List (String × AircraftTrail)) (tid : String),
      (∀ t, findTrail m tid = some t →
          ∃ u, findTrail (l.foldl (trailStep config now) m) tid = some u
            ∧ u.max_points = t.max_points) ∧
      (findTrail m tid = none →
        ∀ u, findTrail (l.foldl (trailStep config now) m) tid = some u →
          u.max_points = config.trail_length) := by
  intro l
  induction l with
  | nil =>
      intro m tid
      refine ⟨fun t ht => ⟨t, ht, rfl⟩, fun hn u hu => ?_⟩
      simp only [List.foldl_nil] at hu
      rw [hn] at hu
      cases hu
  | cons a l ih =>
      intro m tid
      constructor
      · intro t ht
        simp only [List.foldl_cons]
        cases hpos : a.position with
        | none =>
            exact (ih _ tid).1 t
              ((findTrail_trailStep_none config now m a hpos tid).trans ht)
        | some q =>
            by_cases htid : tid = a.icao24
            · rw [htid] at ht
              have hstep : findTrail (trailStep config now m a) tid
                  = some (t.add_position q (a.time_position.getD now)) := by
                rw [findTrail_trailStep_some config now m a q hpos tid, if_pos htid, ht]
                rfl
              obtain ⟨u, hu, hmu⟩ := (ih _ tid).1 _ hstep
              exact ⟨u, hu, by rw [hmu, add_position_max_points]⟩
            · have hstep : findTrail (trailStep config now m a) tid
                  = findTrail m tid := by
                rw [findTrail_trailStep_some config now m a q hpos tid, if_neg htid]
              exact (ih _ tid).1 t (hstep.trans ht)
      · intro hn u hu
        simp only [List.foldl_cons] at hu
        cases hpos : a.position with
        | none =>
            exact (ih _ tid).2
              ((findTrail_trailStep_none config now m a hpos tid).trans hn) u hu
        | some q =>
            by_cases htid : tid = a.icao24
            · rw [htid] at hn
              have hstep : findTrail (trailStep config now m a) tid
                  = some ((AircraftTrail.new a.icao24 config.trail_length).add_position q
                      (a.time_position.getD now)) := by
                rw [findTrail_trailStep_some config now m a q hpos tid, if_pos htid, hn]
                rfl
              obtain ⟨w, hw, hmw⟩ := (ih _ tid).1 _ hstep
              rw [hu] at hw
              cases hw
              rw [hmw, add_position_max_points]
              rfl
            · have hstep : findTrail (trailStep config now m a) tid
                  = findTrail m tid := by
                rw [findTrail_trailStep_some config now m a q hpos tid, if_neg htid]
              exact (ih _ tid).2 (hstep.trans hn) u hu

/-- C9: `update_trails` skips every aircraft whose position is unresolvable:
running it on the snapshot equals running it on the snapshot with those
aircraft filtered out, so for such an aircraft no trail is created and no
entry appended, while the other aircraft are processed exactly as before. -/
theorem update_trails_skips_unresolvable (v : RadarView) (ac : List Aircraft)
    (config : AppConfig) (now : ℤ) :
    v.update_trails ac config now
      = v.update_trails (ac.filter fun a => a.position.isSome) config now := by
  unfold RadarView.update_trails
  rw [foldl_trailStep_filter]

/-- C10: a trail's `max_points` is fixed at creation: any trail already in
the store keeps its `max_points` across `update_trails` (whatever
`config.trail_length` now is), and a trail that first appears for an id
was created with the current `config.trail_length`. -/
theorem update_trails_max_points_stable (v : RadarView) (ac : List Aircraft)
    (config : AppConfig) (now : ℤ) (tid : String) :
    (∀ t, findTrail v.aircraft_trails tid = some t →
        ∃ u, findTrail ((v.update_trails ac config now).aircraft_trails) tid = some u
          ∧ u.max_points = t.max_points) ∧
    (findTrail v.aircraft_trails tid = none →
      ∀ u, findTrail ((v.update_trails ac config now).aircraft_trails) tid = some u →
        u.max_points = config.trail_length) :=
  foldl_trailStep_max_points config now ac v.aircraft_trails tid

/-- C10 witness: a store holding a trail for "a" with bound 3 is updated
with `trail_length = 7`; the existing trail keeps bound 3 while the newly
created trail for "b" gets bound 7. -/
theorem update_trails_max_points_stable_witness :
    (∃ u, findTrail (((⟨⟨0, 0⟩, 200, 1, [("a", AircraftTrail.new "a" 3)]⟩ :
          RadarView).update_trails
            [⟨"a", none, some 5, some 1, some 2, none, none⟩,
             ⟨"b", none, some 6, some 3, some 4, none, none⟩]
            ⟨⟨0, 0, none⟩, 8, true, 7, Theme.Dark⟩ 0).aircraft_trails) "a"
        = some u ∧ u.max_points = 3) ∧
    (AircraftTrail.mk "b" [(⟨3, 4⟩, 6)] 7).max_points = 7 :=
  ⟨(update_trails_max_points_stable
      ⟨⟨0, 0⟩, 200, 1, [("a", AircraftTrail.new "a" 3)]⟩
      [⟨"a", none, some 5, some 1, some 2, none, none⟩,
       ⟨"b", none, some 6, some 3, some 4, none, none⟩]
      ⟨⟨0, 0, none⟩, 8, true, 7, Theme.Dark⟩ 0 "a").1
      (AircraftTrail.new "a" 3) rfl,
   (update_trails_max_points_stable
      ⟨⟨0, 0⟩, 200, 1, [("a", AircraftTrail.new "a" 3)]⟩
      [⟨"a", none, some 5, some 1, some 2, none, none⟩,
       ⟨"b", none, some 6, some 3, some 4, none, none⟩]
      ⟨⟨0, 0, none⟩, 8, true, 7, Theme.Dark⟩ 0 "b").2
      rfl (AircraftTrail.mk "b" [(⟨3, 4⟩, 6)] 7) rfl⟩

/-- The range-ring loop unrolled: five stroked circles at radii
`radius * i/5` (i = 1..5), each followed by its `"{i} mi"` distance label. -/
lemma draw_range_rings_eq (v : RadarView) (config : AppConfig) :
    v.draw_range_rings config =
      let rc := if config.theme.is_dark then Color32.from_rgb 60 60 80
                else Color32.from_rgb 200 200 220
      [Primitive.circleStroke v.center (v.radius * (1/5)) ⟨1, rc⟩,
       Primitive.text ⟨v.center.x + v.radius * (1/5) * (7/10),
                       v.center.y - v.radius * (1/5) * (7/10)⟩ "1 mi" 12 rc,
       Primitive.circleStroke v.center (v.radius * (2/5)) ⟨1, rc⟩,
       Primitive.text ⟨v.center.x + v.radius * (2/5) * (7/10),
                       v.center.y - v.radius * (2/5) * (7/10)⟩ "2 mi" 12 rc,
       Primitive.circleStroke v.center (v.radius * (3/5)) ⟨1, rc⟩,
       Primitive.text ⟨v.center.x + v.radius * (3/5) * (7/10),
                       v.center.y - v.radius * (3/5) * (7/10)⟩ "3 mi" 12 rc,
       Primitive.circleStroke v.center (v.radius * (4/5)) ⟨1, rc⟩,
       Primitive.text ⟨v.center.x + v.radius * (4/5) * (7/10),
                       v.center.y - v.radius * (4/5) * (7/10)⟩ "4 mi" 12 rc,
       Primitive.circleStroke v.center (v.radius * (5/5)) ⟨1, rc⟩,
       Primitive.text ⟨v.center.x + v.radius * (5/5) * (7/10),
                       v.center.y - v.radius * (5/5) * (7/10)⟩ "5 mi" 12 rc] := by
  have h5 : List.range 5 = [0, 1, 2, 3, 4] := rfl
  have hs1 : toString (1 : ℕ) ++ " mi" = "1 mi" := rfl
  have hs2 : toString (2 : ℕ) ++ " mi" = "2 mi" := rfl
  have hs3 : toString (3 : ℕ) ++ " mi" = "3 mi" := rfl
  have hs4 : toString (4 : ℕ) ++ " mi" = "4 mi" := rfl
  have hs5 : toString (5 : ℕ) ++ " mi" = "5 mi" := rfl
  simp [RadarView.draw_range_rings, h5, hs1, hs2, hs3, hs4, hs5]
  norm_num

/-- The compass-rose loop unrolled: the four texts N, E, S, W at bearings
0°, 90°, 180°, 270°, placed at radius `radius + 20`. -/
lemma draw_compass_rose_eq (v : RadarView) (trig : Trig) :
    v.draw_compass_rose trig =
      [Primitive.text ⟨v.center.x + (v.radius + 20) * trig.sin (0 * PI / 180),
                       v.center.y - (v.radius + 20) * trig.cos (0 * PI / 180)⟩
         "N" 14 Color32.WHITE,
       Primitive.text ⟨v.center.x + (v.radius + 20) * trig.sin (90 * PI / 180),
                       v.center.y - (v.radius + 20) * trig.cos (90 * PI / 180)⟩
         "E" 14 Color32.WHITE,
       Primitive.text ⟨v.center.x + (v.radius + 20) * trig.sin (180 * PI / 180),
                       v.center.y - (v.radius + 20) * trig.cos (180 * PI / 180)⟩
         "S" 14 Color32.WHITE,
       Primitive.text ⟨v.center.x + (v.radius + 20) * trig.sin (270 * PI / 180),
                       v.center.y - (v.radius + 20) * trig.cos (270 * PI / 180)⟩
         "W" 14 Color32.WHITE] := rfl

/-- A fold whose step either keeps the accumulator or appends one polyline
only ever adds polylines. -/
lemma foldl_preserves_lines {α : Type} (step : List Primitive → α → List Primitive)
    (hstep : ∀ ps a, step ps a = ps ∨ ∃ pts s, step ps a = ps ++ [Primitive.line pts s]) :
    ∀ (l : List α) (init : List Primitive),
      (∀ pr ∈ init, ∃ pts s, pr = Primitive.line pts s) →
      ∀ pr ∈ l.foldl step init, ∃ pts s, pr = Primitive.line pts s := by
  intro l
  induction l with
  | nil =>
      intro init h
      simpa using h
  | cons a l ih =>
      intro init h
      simp only [List.foldl_cons]
      apply ih
      rcases hstep init a with h1 | ⟨pts, s, h1⟩ <;> rw [h1]
      · exact h
      · intro pr hpr
        rcases List.mem_append.mp hpr with h2 | h2
        · exact h pr h2
        · simp only [List.mem_singleton] at h2
          exact ⟨pts, s, h2⟩

/-- Every primitive emitted by `draw_aircraft_trails` is a polyline. -/
lemma draw_aircraft_trails_lines (v : RadarView) (loc : Location) :
    ∀ pr ∈ v.draw_aircraft_trails loc, ∃ pts s, pr = Primitive.line pts s := by
  apply foldl_preserves_lines _ ?_ _ [] (by simp)
  intro ps kt
  dsimp only
  split_ifs with h1 h2
  · left; rfl
  · right; exact ⟨_, _, rfl⟩
  · left; rfl

/-- `draw_aircraft` as a flat map: per aircraft, nothing when the position
is missing or projects out of range, otherwise the icon followed by the
label. -/
lemma draw_aircraft_eq (v : RadarView) (trig : Trig) (ac : List Aircraft)
    (loc : Location) :
    v.draw_aircraft trig ac loc
      = ac.flatMap (fun a =>
          match a.position with
          | some position =>
              match v.geo_to_screen position loc with
              | some sp => v.draw_aircraft_icon trig a sp
              | none => []
          | none => []) := by
  suffices h : ∀ (l : List Aircraft) (init : List Primitive),
      l.foldl (fun ps a =>
          match a.position with
          | some position =>
              match v.geo_to_screen position loc with
              | some screen_pos => ps ++ v.draw_aircraft_icon trig a screen_pos
              | none => ps
          | none => ps) init
        = init ++ l.flatMap (fun a =>
            match a.position with
            | some position =>
                match v.geo_to_screen position loc with
                | some sp => v.draw_aircraft_icon trig a sp
                | none => []
            | none => []) by
    simpa [RadarView.draw_aircraft] using h ac []
  intro l
  induction l with
  | nil => intro init; simp
  | cons a l ih =>
      intro init
      simp only [List.foldl_cons, List.flatMap_cons]
      rw [ih]
      cases hpos : a.position with
      | none => simp [hpos]
      | some q =>
          cases hgeo : v.geo_to_screen q loc with
          | none => simp [hpos, hgeo]
          | some sp => simp [hpos, hgeo]

/-- C8: `draw` emits its primitives in the fixed layer order — the
background disc, then the five range rings at evenly spaced fractions
`i/5` of the pixel radius each labeled with its distance value `"{i} mi"`,
then the compass rose N/E/S/W at bearings 0°/90°/180°/270° just outside
the radius, then the aircraft trails (polylines only, and only when
`show_trails` is enabled), then per aircraft an icon (oriented triangle
from `true_track` when present, otherwise a plain circle, colored by the
altitude band) followed by its non-empty display-name label, and finally
the center crosshair with the reference-location label. -/
theorem draw_layer_order (v : RadarView) (trig : Trig) (ac : List Aircraft)
    (config : AppConfig) (loc : Location) :
    ∃ trails : List Primitive,
      (config.show_trails = false → trails = []) ∧
      (∀ pr ∈ trails, ∃ pts s, pr = Primitive.line pts s) ∧
      v.draw trig ac config loc
        = [Primitive.rectFilled v.center (v.radius * 2) v.radius
             (if config.theme.is_dark then Color32.from_rgb 20 20 30
              else Color32.from_rgb 240 240 250)]
          ++ (let rc := if config.theme.is_dark then Color32.from_rgb 60 60 80
                        else Color32.from_rgb 200 200 220
              [Primitive.circleStroke v.center (v.radius * (1/5)) ⟨1, rc⟩,
               Primitive.text ⟨v.center.x + v.radius * (1/5) * (7/10),
                               v.center.y - v.radius * (1/5) * (7/10)⟩ "1 mi" 12 rc,
               Primitive.circleStroke v.center (v.radius * (2/5)) ⟨1, rc⟩,
               Primitive.text ⟨v.center.x + v.radius * (2/5) * (7/10),
                               v.center.y - v.radius * (2/5) * (7/10)⟩ "2 mi" 12 rc,
               Primitive.circleStroke v.center (v.radius * (3/5)) ⟨1, rc⟩,
               Primitive.text ⟨v.center.x + v.radius * (3/5) * (7/10),
                               v.center.y - v.radius * (3/5) * (7/10)⟩ "3 mi" 12 rc,
               Primitive.circleStroke v.center (v.radius * (4/5)) ⟨1, rc⟩,
               Primitive.text ⟨v.center.x + v.radius * (4/5) * (7/10),
                               v.center.y - v.radius * (4/5) * (7/10)⟩ "4 mi" 12 rc,
               Primitive.circleStroke v.center (v.radius * (5/5)) ⟨1, rc⟩,
               Primitive.text ⟨v.center.x + v.radius * (5/5) * (7/10),
                               v.center.y - v.radius * (5/5) * (7/10)⟩ "5 mi" 12 rc])
          ++ [Primitive.text ⟨v.center.x + (v.radius + 20) * trig.sin (0 * PI / 180),
                              v.center.y - (v.radius + 20) * trig.cos (0 * PI / 180)⟩
                "N" 14 Color32.WHITE,
              Primitive.text ⟨v.center.x + (v.radius + 20) * trig.sin (90 * PI / 180),
                              v.center.y - (v.radius + 20) * trig.cos (90 * PI / 180)⟩
                "E" 14 Color32.WHITE,
              Primitive.text ⟨v.center.x + (v.radius + 20) * trig.sin (180 * PI / 180),
                              v.center.y - (v.radius + 20) * trig.cos (180 * PI / 180)⟩
                "S" 14 Color32.WHITE,
              Primitive.text ⟨v.center.x + (v.radius + 20) * trig.sin (270 * PI / 180),
                              v.center.y - (v.radius + 20) * trig.cos (270 * PI / 180)⟩
                "W" 14 Color32.WHITE]
          ++ trails
          ++ ac.flatMap (fun a =>
              match a.position with
              | some position =>
                  match v.geo_to_screen position loc with
                  | some sp => v.draw_aircraft_icon trig a sp
                  | none => []
              | none => [])
          ++ [Primitive.lineSegment ⟨v.center.x - 10, v.center.y⟩
                ⟨v.center.x + 10, v.center.y⟩ ⟨2, Color32.WHITE⟩,
              Primitive.lineSegment ⟨v.center.x, v.center.y - 10⟩
                ⟨v.center.x, v.center.y + 10⟩ ⟨2, Color32.WHITE⟩,
              Primitive.text ⟨v.center.x, v.center.y + 25⟩
                (loc.name.getD "Your Location") 12 Color32.WHITE] ∧
      (∀ (a : Aircraft) (sp : Pos2),
        v.draw_aircraft_icon trig a sp
          = (match a.true_track with
             | some heading =>
                 [Primitive.convexPolygon
                    [⟨sp.x + 8 * trig.cos (heading * PI / 180),
                      sp.y - 8 * trig.sin (heading * PI / 180)⟩,
                     ⟨sp.x + 8 * (1/2) * trig.cos (heading * PI / 180 + 5/2),
                      sp.y - 8 * (1/2) * trig.sin (heading * PI / 180 + 5/2)⟩,
                     ⟨sp.x + 8 * (1/2) * trig.cos (heading * PI / 180 - 5/2),
                      sp.y - 8 * (1/2) * trig.sin (heading * PI / 180 - 5/2)⟩]
                    a.altitude_band.color ⟨1, Color32.BLACK⟩]
             | none => [Primitive.circleFilled sp 8 a.altitude_band.color])
            ++ (if a.display_name.isEmpty then []
                else [Primitive.text ⟨sp.x, sp.y - 15⟩ a.display_name 10
                        Color32.WHITE])) := by
  refine ⟨if config.show_trails then v.draw_aircraft_trails loc else [], ?_, ?_, ?_, ?_⟩
  · intro h
    simp [h]
  · intro pr hpr
    cases hb : config.show_trails
    · simp [hb] at hpr
    · simp only [hb, if_true] at hpr
      exact draw_aircraft_trails_lines v loc pr hpr
  · unfold RadarView.draw
    rw [draw_range_rings_eq, draw_compass_rose_eq, draw_aircraft_eq]
    rfl
  · intro a sp
    rfl

/-- C8 witness: for a concrete view, trig record, empty snapshot and a
configuration with trails disabled, the draw stream consists of exactly the
1 + 10 + 4 + 0 + 0 + 3 = 18 primitives of the non-trail layers. -/
theorem draw_layer_order_witness :
    ((⟨⟨0, 0⟩, 100, 1, []⟩ : RadarView).draw ⟨fun _ => 0, fun _ => 0⟩ []
        ⟨⟨0, 0, none⟩, 8, false, 10, Theme.Dark⟩ ⟨0, 0, none⟩).length = 18 := by
  obtain ⟨trails, h1, h2, h3, h4⟩ :=
    draw_layer_order (⟨⟨0, 0⟩, 100, 1, []⟩ : RadarView) ⟨fun _ => 0, fun _ => 0⟩ []
      ⟨⟨0, 0, none⟩, 8, false, 10, Theme.Dark⟩ ⟨0, 0, none⟩
  rw [h3, h1 rfl]
  rfl
